import Mathlib

namespace RelDash

/-!
# Relationship dashboard: verification of the lifecycle / subgraph / projection engine

A shallow embedding of `src/app/states/relationship_state.py` (data model from
`src/app/models.py`).  Database tables are lists of records, timestamps are
abstract `Nat` ticks, the zoom level is an exact rational, and each mutating
event handler becomes a pure function from the database (plus its arguments)
to the new database.  Float-based node layout positions (trigonometric
placement) are not modelled; no claim concerns them.
-/

/-- `RelationshipType` enum from `models.py`. -/
inductive RelationshipType where
  | employment
  | social
  | business
deriving DecidableEq, Repr

/-- `RelationshipTerm` enum from `models.py`. -/
inductive RelationshipTerm where
  | works_for
  | invested_in
  | competitor
  | colleague
  | friend
  | enemy
deriving DecidableEq, Repr

/-- The string value of a term (`RelationshipTerm(str, enum.Enum)` values). -/
def termStr : RelationshipTerm → String
  | .works_for => "works_for"
  | .invested_in => "invested_in"
  | .competitor => "competitor"
  | .colleague => "colleague"
  | .friend => "friend"
  | .enemy => "enemy"

/-- Inverse of `termStr`: the `RelationshipTerm(new_term)` constructor, which
raises (modelled as `none`) on an unknown string. -/
def termOfString : String → Option RelationshipTerm
  | "works_for" => some .works_for
  | "invested_in" => some .invested_in
  | "competitor" => some .competitor
  | "colleague" => some .colleague
  | "friend" => some .friend
  | "enemy" => some .enemy
  | _ => none

/-- The string value of a relationship type. -/
def typeStr : RelationshipType → String
  | .employment => "employment"
  | .social => "social"
  | .business => "business"

/-- Python `rel.relationship_type.value.title()`. -/
def typeTitle : RelationshipType → String
  | .employment => "Employment"
  | .social => "Social"
  | .business => "Business"

/-- One row of the `TERM_DEFAULTS` table. -/
structure TermDefault where
  is_directed : Bool
  default_score : Int
deriving DecidableEq, Repr

/-- `TERM_DEFAULTS` from `relationship_state.py` (a total table: the
dictionary covers all six terms, so the `.get` fallback is dead code). -/
def TERM_DEFAULTS : RelationshipTerm → TermDefault
  | .works_for => { is_directed := true, default_score := 0 }
  | .invested_in => { is_directed := true, default_score := 50 }
  | .competitor => { is_directed := false, default_score := -50 }
  | .colleague => { is_directed := false, default_score := 20 }
  | .friend => { is_directed := false, default_score := 80 }
  | .enemy => { is_directed := false, default_score := -100 }

/-- `TERM_TO_TYPE` from `relationship_state.py`. -/
def TERM_TO_TYPE : RelationshipTerm → RelationshipType
  | .works_for => .employment
  | .invested_in => .business
  | .competitor => .business
  | .colleague => .business
  | .friend => .social
  | .enemy => .social

/-- A node reference: the `(type, id)` tuples used as dictionary keys in the
source (`("company", …)` / `("person", …)`). -/
abbrev NodeRef := String × Nat

/-- `Relationship` table row from `models.py`. -/
structure Relationship where
  id : Nat
  score : Int
  created_at : Nat
  last_updated : Nat
  last_modified_by : String
  relationship_type : RelationshipType
  is_active : Bool
  is_directed : Bool
  term : RelationshipTerm
  source_type : String
  source_id : Nat
  target_type : String
  target_id : Nat
deriving DecidableEq, Repr

/-- The `(source_type, source_id)` node reference of a relationship row. -/
def srcRef (r : Relationship) : NodeRef := (r.source_type, r.source_id)

/-- The `(target_type, target_id)` node reference of a relationship row. -/
def tgtRef (r : Relationship) : NodeRef := (r.target_type, r.target_id)

/-- `RelationshipLog` table row from `models.py` (terms kept as the enum the
source passes in before SQLModel stringifies them). -/
structure RelationshipLog where
  previous_score : Int
  new_score : Int
  previous_term : Option RelationshipTerm := none
  new_term : Option RelationshipTerm := none
  action : String
  changed_at : Nat
  note : String
  relationship_id : Nat
deriving DecidableEq, Repr

/-- The relational store mutated by the lifecycle operations: the
`relationship` and `relationshiplog` tables plus the autoincrement counter
for new relationship primary keys. -/
structure DB where
  rels : List Relationship
  logs : List RelationshipLog
  nextRelId : Nat
deriving DecidableEq, Repr

/-- `session.get(Relationship, rel_id)`: first row with the primary key. -/
def findRel (db : DB) (rel_id : Nat) : Option Relationship :=
  db.rels.find? (fun r => r.id == rel_id)

/-- ORM-style in-place row update: rewrite the row(s) with the given primary
key, leaving every other row untouched. -/
def updateById (l : List Relationship) (rel_id : Nat) (f : Relationship → Relationship) :
    List Relationship :=
  l.map (fun r => if r.id == rel_id then f r else r)

/-- The row mutation performed by `update_relationship_score`. -/
def scorePatch (new_score : Int) (now : Nat) (current_user : String)
    (x : Relationship) : Relationship :=
  { x with score := new_score, last_updated := now,
           last_modified_by := current_user }

/-- `update_relationship_score`: loads the row by id (silently aborting when
absent), stores the new score with fresh audit fields and appends one
`score_change` log recording the previous and new score. -/
def update_relationship_score (db : DB) (rel_id : Nat) (new_score : Int)
    (now : Nat) (current_user : String) : DB :=
  match findRel db rel_id with
  | none => db
  | some r =>
    { db with
      rels := updateById db.rels rel_id (scorePatch new_score now current_user),
      logs := db.logs ++ [{ previous_score := r.score, new_score := new_score,
                            action := "score_change", changed_at := now,
                            note := "Manual update via graph",
                            relationship_id := r.id }] }

/-- The full observable outcome of the `update_relationship_score` event
handler: the store it leaves behind paired with the user notification it
surfaces.  The handler's body contains no toast call on any path — when the
id is missing the `if relationship:` guard falls through and the handler
still proceeds to reload — so the notification component is `none` in both
branches: a missing id is a silent no-op, not a surfaced `NotFound`
failure. -/
def update_relationship_score_event (db : DB) (rel_id : Nat)
    (new_score : Int) (now : Nat) (current_user : String) :
    DB × Option String :=
  (update_relationship_score db rel_id new_score now current_user, none)

/-- The row mutation performed by `soft_delete_relationship`. -/
def softDeletePatch (now : Nat) (x : Relationship) : Relationship :=
  { x with is_active := false, last_updated := now }

/-- `soft_delete_relationship`: clears `is_active`, refreshes `last_updated`
and appends one `soft_delete` log whose `new_score` is the constant `0`. -/
def soft_delete_relationship (db : DB) (rel_id : Nat) (now : Nat) : DB :=
  match findRel db rel_id with
  | none => db
  | some r =>
    { db with
      rels := updateById db.rels rel_id (softDeletePatch now),
      logs := db.logs ++ [{ previous_score := r.score, new_score := 0,
                            action := "soft_delete", changed_at := now,
                            note := "Relationship soft deleted",
                            relationship_id := r.id }] }

/-- The row mutation performed by `update_relationship_term`: term, derived
type, default directedness/score, audit fields. -/
def termPatch (te : RelationshipTerm) (now : Nat) (current_user : String)
    (x : Relationship) : Relationship :=
  { x with term := te,
           relationship_type := TERM_TO_TYPE te,
           is_directed := (TERM_DEFAULTS te).is_directed,
           score := (TERM_DEFAULTS te).default_score,
           last_updated := now,
           last_modified_by := current_user }

/-- `update_relationship_term`: parses the term string (an unknown string
raises, caught as a no-op), recomputes the derived type from `TERM_TO_TYPE`,
resets `is_directed` and `score` to the `TERM_DEFAULTS` entry and appends one
`term_change` log.  The source builds the log after mutating the row, so the
log's `new_score` reads the freshly assigned default score. -/
def update_relationship_term (db : DB) (rel_id : Nat) (new_term : String)
    (now : Nat) (current_user : String) : DB :=
  match termOfString new_term with
  | none => db
  | some te =>
    match findRel db rel_id with
    | none => db
    | some r =>
      { db with
        rels := updateById db.rels rel_id (termPatch te now current_user),
        logs := db.logs ++ [{ previous_score := r.score,
                              new_score := (TERM_DEFAULTS te).default_score,
                              previous_term := some r.term, new_term := some te,
                              action := "term_change", changed_at := now,
                              note := "Term changed to " ++ new_term,
                              relationship_id := r.id }] }

/-- Split a string at `-` characters, accumulator-style
(Python `s.split("-")` semantics, so `""` yields `[""]`). -/
def splitDashAux : List Char → List Char → List (List Char)
  | [], cur => [cur.reverse]
  | c :: rest, cur =>
    if c = '-' then cur.reverse :: splitDashAux rest []
    else splitDashAux rest (c :: cur)

/-- Python `s.split("-")`. -/
def splitDash (s : String) : List String :=
  (splitDashAux s.toList []).map (fun l => String.mk l)

/-- Digit-list accumulator for `natOfString`. -/
def natOfCharsAux : List Char → Nat → Option Nat
  | [], acc => some acc
  | c :: rest, acc =>
    if 48 ≤ c.toNat ∧ c.toNat ≤ 57 then
      natOfCharsAux rest (acc * 10 + (c.toNat - 48))
    else none

/-- Parse a nonempty all-digit string as a Nat; `none` on any other input
(Python `int(...)` raising `ValueError`, caught by the enclosing handler). -/
def natOfString (s : String) : Option Nat :=
  match s.toList with
  | [] => none
  | cs => natOfCharsAux cs 0

/-- Decode the wire node id (`"acc-3"` / `"con-7"`): needs at least two
`-`-separated parts, a numeric second part, and maps the `acc` tag to
`"company"` and anything else to `"person"` (exactly the source's
`"company" if prefix == "acc" else "person"`). -/
def parseNodeId (s : String) : Option NodeRef :=
  match splitDash s with
  | p1 :: p2 :: _ =>
    match natOfString p2 with
    | some n => some ((if p1 = "acc" then "company" else "person"), n)
    | none => none
  | _ => none

/-- Result of a create-or-reactivate event handler: which branch ran, and the
database it left behind (`error`/`duplicate` leave it untouched). -/
inductive ConnectOutcome where
  | error (db : DB)
  | duplicate (db : DB)
  | reactivated (db : DB)
  | created (db : DB)
deriving DecidableEq, Repr

/-- The database carried by any outcome. -/
def outcomeDB : ConnectOutcome → DB
  | .error db => db
  | .duplicate db => db
  | .reactivated db => db
  | .created db => db

/-- `true` exactly on the `created` branch. -/
def isCreated : ConnectOutcome → Bool
  | .created _ => true
  | _ => false

/-- `true` exactly on the `reactivated` branch. -/
def isReactivated : ConnectOutcome → Bool
  | .reactivated _ => true
  | _ => false

/-- The ordered-pair predicate of the duplicate lookup used by both creation
paths: all four `where` clauses of the `select(Relationship)` query. -/
def ordMatch (r : Relationship) (src tgt : NodeRef) : Bool :=
  decide (r.source_type = src.1 ∧ r.source_id = src.2 ∧
          r.target_type = tgt.1 ∧ r.target_id = tgt.2)

/-- `.first()` of the ordered-pair duplicate lookup. -/
def findPair (db : DB) (src tgt : NodeRef) : Option Relationship :=
  db.rels.find? (fun r => ordMatch r src tgt)

/-- The `rel_type` choice of `on_connect`, by endpoint kinds. -/
def connectRelType (st tt : String) : RelationshipType :=
  if st = "company" ∧ tt = "company" then .business
  else if (st = "person" ∧ tt = "company") ∨ (st = "company" ∧ tt = "person") then .employment
  else .social

/-- The `default_term` choice of `on_connect`, by endpoint kinds. -/
def connectTerm (st tt : String) : RelationshipTerm :=
  if st = "company" ∧ tt = "company" then .competitor
  else if (st = "person" ∧ tt = "company") ∨ (st = "company" ∧ tt = "person") then .works_for
  else .friend

/-- `create_relationship_with_term`: insert a fresh active row using the
`TERM_DEFAULTS` policy for score and directedness; creation appends no log. -/
def create_relationship_with_term (db : DB) (src tgt : NodeRef)
    (term : RelationshipTerm) (rel_type : RelationshipType) (now : Nat) : DB :=
  { db with
    rels := db.rels ++ [{
      id := db.nextRelId,
      score := (TERM_DEFAULTS term).default_score,
      created_at := now, last_updated := now,
      last_modified_by := "System User",
      relationship_type := rel_type, is_active := true,
      is_directed := (TERM_DEFAULTS term).is_directed, term := term,
      source_type := src.1, source_id := src.2,
      target_type := tgt.1, target_id := tgt.2 }],
    nextRelId := db.nextRelId + 1 }

/-- The row mutation of the `on_connect` reactivation branch: only
`is_active` and `last_updated`; no term/type/score overwrite happens here. -/
def connectReactivatePatch (now : Nat) (x : Relationship) : Relationship :=
  { x with is_active := true, last_updated := now }

/-- The row mutation of the panel reactivation branch: lifecycle flags plus
the term, derived type and the supplied score. -/
def panelReactivatePatch (te : RelationshipTerm) (score : Int) (now : Nat)
    (x : Relationship) : Relationship :=
  { x with is_active := true, term := te,
           relationship_type := TERM_TO_TYPE te,
           score := score, last_updated := now }

/-- The reactivation branch of `on_connect`: only `is_active`/`last_updated`
change on the row; one `reactivate` log repeats the stored score on both
sides. -/
def reactivateViaConnect (db : DB) (ex : Relationship) (now : Nat) : DB :=
  { db with
    rels := updateById db.rels ex.id (connectReactivatePatch now),
    logs := db.logs ++ [{ previous_score := ex.score, new_score := ex.score,
                          action := "reactivate", changed_at := now,
                          note := "Reactivated via graph connection",
                          relationship_id := ex.id }] }

/-- `on_connect` after node-id decoding: reject self-connections, look up the
ordered pair, then duplicate-reject / reactivate / create. -/
def on_connect_refs (db : DB) (src tgt : NodeRef) (now : Nat) : ConnectOutcome :=
  if src.1 = tgt.1 ∧ src.2 = tgt.2 then .error db
  else
    match findPair db src tgt with
    | some ex =>
      if ex.is_active then .duplicate db
      else .reactivated (reactivateViaConnect db ex now)
    | none =>
      .created (create_relationship_with_term db src tgt
        (connectTerm src.1 tgt.1) (connectRelType src.1 tgt.1) now)

/-- `on_connect`: the drag-connect handler (malformed ids, like a failing
`int(...)`, abort with the state untouched). -/
def on_connect (db : DB) (source target : String) (now : Nat) : ConnectOutcome :=
  match parseNodeId source, parseNodeId target with
  | some src, some tgt => on_connect_refs db src tgt now
  | _, _ => .error db

/-- `create_relationship_from_panel`: the side-panel creation handler.  No
self-connection check exists on this path.  On reactivation the source
assigns `existing.score = score` before constructing the log, so the log's
`previous_score` records the newly supplied score, and the new score (not the
term default) is also used when creating a fresh row. -/
def create_relationship_from_panel (db : DB) (selected_node_id : String)
    (creation_target_id : Nat) (creation_target_type : String)
    (term : String) (score : Int) (now : Nat) : ConnectOutcome :=
  if selected_node_id = "" then .error db
  else if creation_target_id = 0 then .error db
  else
    match parseNodeId selected_node_id, termOfString term with
    | some src, some te =>
      let tgt : NodeRef := (creation_target_type, creation_target_id)
      match findPair db src tgt with
      | some ex =>
        if ex.is_active then .duplicate db
        else
          .reactivated { db with
            rels := updateById db.rels ex.id (panelReactivatePatch te score now),
            logs := db.logs ++ [{ previous_score := score, new_score := score,
                                  action := "reactivate_panel", changed_at := now,
                                  note := "Reactivated via side panel",
                                  relationship_id := ex.id }] }
      | none =>
        .created { db with
          rels := db.rels ++ [{
            id := db.nextRelId, score := score,
            created_at := now, last_updated := now,
            last_modified_by := "System User",
            relationship_type := TERM_TO_TYPE te, is_active := true,
            is_directed := (TERM_DEFAULTS te).is_directed, term := te,
            source_type := src.1, source_id := src.2,
            target_type := creation_target_type, target_id := creation_target_id }],
          nextRelId := db.nextRelId + 1 }
    | _, _ => .error db

/-! ## Subgraph selector -/

/-- `Account` table row from `models.py` (audit columns not used by the
selector/projection are omitted). -/
structure Account where
  id : Nat
  name : String
  ticker : String
deriving DecidableEq, Repr

/-- `Contact` table row from `models.py`. -/
structure Contact where
  id : Nat
  first_name : String
  last_name : String
  job_title : String
  account_id : Option Nat := none
deriving DecidableEq, Repr

/-- The relationship rows visible to a query: the `where(is_active == True)`
clause applied unless the show-historic flag is set. -/
def visibleRels (allRels : List Relationship) (show_historic : Bool) :
    List Relationship :=
  if show_historic then allRels else allRels.filter (fun r => r.is_active)

/-- One `counter[key] += 1` step on an insertion-ordered counter: bump the
first entry holding the key, or append a fresh entry at the end. -/
def bump : List (NodeRef × Nat) → NodeRef → List (NodeRef × Nat)
  | [], k => [(k, 1)]
  | (k', c) :: rest, k =>
    if k' = k then (k', c + 1) :: rest else (k', c) :: bump rest k

/-- The `collections.Counter` built by `get_most_connected_nodes`: one bump
for the source and one for the target of every relationship, keys kept in
first-seen order. -/
def counterList (rels : List Relationship) : List (NodeRef × Nat) :=
  rels.foldl (fun acc r => bump (bump acc (srcRef r)) (tgtRef r)) []

/-- Counter lookup (missing keys count 0). -/
def lookupCount : List (NodeRef × Nat) → NodeRef → Nat
  | [], _ => 0
  | (k, c) :: rest, j => if k = j then c else lookupCount rest j

/-- The degree a node reference should have: the number of visible
relationships in which it occurs as source or target. -/
def degreeSpec (rels : List Relationship) (j : NodeRef) : Nat :=
  rels.countP (fun r => decide (srcRef r = j ∨ tgtRef r = j))

/-- Stable descending insertion by count: a later entry goes after every
earlier entry of equal count, mirroring the stable
`sorted(..., reverse=True)` underlying `Counter.most_common`. -/
def insertDesc (x : NodeRef × Nat) : List (NodeRef × Nat) → List (NodeRef × Nat)
  | [] => [x]
  | y :: ys => if y.2 < x.2 then x :: y :: ys else y :: insertDesc x ys

/-- Stable sort by count descending (left fold of stable insertions). -/
def sortDesc (l : List (NodeRef × Nat)) : List (NodeRef × Nat) :=
  l.foldl (fun acc x => insertDesc x acc) []

/-- `Counter.most_common(limit)` as key list: stable descending sort then
truncate. -/
def topNodes (rels : List Relationship) (limit : Nat) : List NodeRef :=
  ((sortDesc (counterList rels)).take limit).map (fun p => p.1)

/-- `get_most_connected_nodes`: rank node references by degree over the
visible relationship set, keep the top `limit`, and restrict the tables and
the edge set to the chosen references. -/
def get_most_connected_nodes (accounts : List Account) (contacts : List Contact)
    (allRels : List Relationship) (show_historic : Bool) (limit : Nat) :
    List Account × List Contact × List Relationship :=
  let rels := visibleRels allRels show_historic
  let top := topNodes rels limit
  let fAcc := accounts.filter (fun a => decide (("company", a.id) ∈ top))
  let fCon := contacts.filter (fun c => decide (("person", c.id) ∈ top))
  let fRels := rels.filter
    (fun r => decide (srcRef r ∈ top) && decide (tgtRef r ∈ top))
  (fAcc, fCon, fRels)

/-- Is `needle` a leading block of `hay`? -/
def leadsB : List Char → List Char → Bool
  | [], _ => true
  | _ :: _, [] => false
  | a :: as, b :: bs => a == b && leadsB as bs

/-- Is `needle` a contiguous block of `hay`? -/
def blockOfB (needle : List Char) : List Char → Bool
  | [] => needle.isEmpty
  | c :: rest => leadsB needle (c :: rest) || blockOfB needle rest

/-- SQL `column ILIKE '%q%'` with a plain (wildcard-free) `q`:
case-insensitive substring containment. -/
def substrCI (q s : String) : Bool :=
  blockOfB (q.toList.map Char.toLower) (s.toList.map Char.toLower)

/-- The per-node adjacency rows of the `defaultdict` built by
`search_and_build_subgraph` (`adj[src].append(tgt); adj[tgt].append(src)` per
relationship, in scan order). -/
def neighborsOf (rels : List Relationship) (n : NodeRef) : List NodeRef :=
  rels.foldl
    (fun acc r =>
      let acc := if srcRef r = n then acc ++ [tgtRef r] else acc
      if tgtRef r = n then acc ++ [srcRef r] else acc)
    []

/-- One breadth-first hop: walk the current frontier, adding every unseen
neighbour to the visited list and to the next frontier.  The source iterates
sets; the resulting membership is order-independent, so insertion-ordered
lists stand in for them. -/
def bfsStep (rels : List Relationship) (visited current : List NodeRef) :
    List NodeRef × List NodeRef :=
  current.foldl
    (fun acc node =>
      (neighborsOf rels node).foldl
        (fun acc2 nb =>
          if nb ∈ acc2.1 then acc2 else (acc2.1 ++ [nb], acc2.2 ++ [nb]))
        acc)
    (visited, [])

/-- `search_and_build_subgraph`: seed from case-insensitive name matches,
expand breadth-first for exactly two hops (with the early-stop length check
after the first hop), truncate an over-limit visited set, and restrict the
tables and edge set to the visited references. -/
def search_and_build_subgraph (accounts : List Account) (contacts : List Contact)
    (allRels : List Relationship) (query : String) (show_historic : Bool)
    (node_limit : Nat) : List Account × List Contact × List Relationship :=
  let acc_matches := accounts.filter (fun a => substrCI query a.name)
  let con_matches := contacts.filter
    (fun c => substrCI query c.first_name || substrCI query c.last_name)
  if acc_matches.isEmpty && con_matches.isEmpty then ([], [], [])
  else
    let frontier := acc_matches.map (fun a => (("company", a.id) : NodeRef))
      ++ con_matches.map (fun c => (("person", c.id) : NodeRef))
    let all_rels := visibleRels allRels show_historic
    let step1 := bfsStep all_rels frontier frontier
    let visited2 :=
      if node_limit ≤ step1.1.length then step1.1
      else (bfsStep all_rels step1.1 step1.2).1
    let visited :=
      if node_limit < visited2.length then visited2.take node_limit else visited2
    let fAcc := accounts.filter (fun a => decide (("company", a.id) ∈ visited))
    let fCon := contacts.filter (fun c => decide (("person", c.id) ∈ visited))
    let fRels := all_rels.filter
      (fun r => decide (srcRef r ∈ visited) && decide (tgtRef r ∈ visited))
    (fAcc, fCon, fRels)

/-! ## Graph projection -/

/-- A render-graph node (the dict built in `graph_data`; layout position and
constant style entries are omitted, the level-of-detail-dependent entries are
kept). -/
structure RenderNode where
  id : String
  group : String
  label : String
  display_name : String
  width : String
deriving DecidableEq, Repr

/-- A render-graph edge (the dict built in `graph_data`): the wire ids and
every level-of-detail-dependent field. -/
structure RenderEdge where
  id : String
  source : String
  target : String
  animated : Bool
  label : Option String
  markerEnd : Bool
  stroke : String
  strokeWidth : Nat
  strokeDasharray : String
deriving DecidableEq, Repr

/-- The `0.6` label-visibility zoom threshold, as a kernel-normal rational. -/
def zoomLabelCut : ℚ := ⟨3, 5, by decide, by decide⟩

/-- The `0.4` small-node zoom threshold, as a kernel-normal rational. -/
def zoomSizeCut : ℚ := ⟨2, 5, by decide, by decide⟩

/-- The `0.5` edge-simplification zoom threshold, as a kernel-normal
rational. -/
def zoomEdgeCut : ℚ := ⟨1, 2, by decide, by decide⟩

/-- Lower-case hex digit. -/
def hexDigit (n : Nat) : Char :=
  if n < 10 then Char.ofNat (48 + n) else Char.ofNat (87 + n)

/-- Python `f"{n:02x}"` for a channel value below 256. -/
def hex2 (n : Nat) : String :=
  String.mk [hexDigit (n / 16 % 16), hexDigit (n % 16)]

/-- One channel of the score gradient: `int(s + (e - s) * k / 100)` computed
exactly (channel values stay positive, so truncation is floor division). -/
def interpChan (s e k : Int) : Nat :=
  (s * 100 + (e - s) * k).toNat / 100

/-- `get_edge_color`: clamp the score to [-100, 100], then interpolate
red→gray on the negative side and gray→green on the non-negative side. -/
def get_edge_color (score : Int) : String :=
  let score := max (-100) (min 100 score)
  if score < 0 then
    let k := score + 100
    "#" ++ hex2 (interpChan 239 156 k) ++ hex2 (interpChan 68 163 k)
      ++ hex2 (interpChan 68 175 k)
  else
    "#" ++ hex2 (interpChan 156 16 score) ++ hex2 (interpChan 163 185 score)
      ++ hex2 (interpChan 175 129 score)

/-- Company node dict of `graph_data`. -/
def accountNode (a : Account) (show_labels : Bool) (size : String) : RenderNode :=
  { id := "acc-" ++ toString a.id, group := "company",
    label := if show_labels then a.name else "",
    display_name := a.name, width := size }

/-- Person node dict of `graph_data`. -/
def contactNode (c : Contact) (show_labels : Bool) (size : String) : RenderNode :=
  { id := "con-" ++ toString c.id, group := "person",
    label := if show_labels then c.first_name ++ " " ++ c.last_name else "",
    display_name := c.first_name ++ " " ++ c.last_name, width := size }

/-- The synthesized employment edge for a contact with a (truthy) account
link pointing at a displayed account.  Note the id interleaves contact id
then account id while source/target are account then contact. -/
def empEdgeOf (accIds : List Nat) (c : Contact) : Option RenderEdge :=
  match c.account_id with
  | some a =>
    if a ≠ 0 ∧ a ∈ accIds then
      some { id := "emp-" ++ toString c.id ++ "-" ++ toString a,
             source := "acc-" ++ toString a,
             target := "con-" ++ toString c.id,
             animated := false, label := none, markerEnd := false,
             stroke := "#334155", strokeWidth := 2, strokeDasharray := "5,5" }
    else none
  | none => none

/-- The explicit relationship edge dict of `graph_data`: skip inactive rows
unless historic display is on, then style by the inactive / employment /
simplified / full branch.  The `animated` flag in both active non-employment
branches is the node-count predicate alone. -/
def relEdgeOf (zoom_level : ℚ) (show_historic : Bool) (total_nodes : Nat)
    (r : Relationship) : Option RenderEdge :=
  if r.is_active = false ∧ show_historic = false then none
  else
    let simplify_edges := decide (zoom_level < zoomEdgeCut)
    let should_animate_particles := decide (total_nodes ≤ 100)
    let sTag := if r.source_type = "company" then "acc-" else "con-"
    let tTag := if r.target_type = "company" then "acc-" else "con-"
    let eid := "rel-" ++ toString r.id
    let esrc := sTag ++ toString r.source_id
    let etgt := tTag ++ toString r.target_id
    if r.is_active = false then
      some { id := eid, source := esrc, target := etgt, animated := false,
             label := some (termStr r.term ++ " (Deleted)"),
             markerEnd := r.is_directed,
             stroke := "#94a3b8", strokeWidth := 1, strokeDasharray := "5,5" }
    else if r.relationship_type = RelationshipType.employment then
      some { id := eid, source := esrc, target := etgt, animated := false,
             label := none, markerEnd := r.is_directed,
             stroke := "#334155", strokeWidth := 2, strokeDasharray := "5,5" }
    else if simplify_edges then
      some { id := eid, source := esrc, target := etgt,
             animated := should_animate_particles, label := none,
             markerEnd := r.is_directed, stroke := get_edge_color r.score,
             strokeWidth := 1, strokeDasharray := "0" }
    else
      some { id := eid, source := esrc, target := etgt,
             animated := should_animate_particles,
             label := some (typeTitle r.relationship_type ++ " ("
               ++ toString r.score ++ ")"),
             markerEnd := r.is_directed, stroke := get_edge_color r.score,
             strokeWidth := 3, strokeDasharray := "0" }

/-- `graph_data`: project the filtered tables into render nodes and edges.
Label visibility and node size are zoom-thresholded; employment edges come
from the contact loop first, explicit relationship edges after. -/
def graph_data (accounts : List Account) (contacts : List Contact)
    (rels : List Relationship) (zoom_level : ℚ) (show_historic : Bool) :
    List RenderNode × List RenderEdge :=
  let show_labels := decide (zoom_level ≥ zoomLabelCut)
  let small_nodes := decide (zoom_level < zoomSizeCut)
  let total_nodes := accounts.length + contacts.length
  let comp_size := if small_nodes then "50px" else "100px"
  let pers_size := if small_nodes then "30px" else "60px"
  let accIds := accounts.map (fun a => a.id)
  let nodes := accounts.map (fun a => accountNode a show_labels comp_size)
    ++ contacts.map (fun c => contactNode c show_labels pers_size)
  let edges := contacts.filterMap (fun c => empEdgeOf accIds c)
    ++ rels.filterMap (fun r => relEdgeOf zoom_level show_historic total_nodes r)
  (nodes, edges)

/-- Sample row for the operation witnesses. -/
def relW : Relationship :=
  { id := 1, score := 20, created_at := 0, last_updated := 0,
    last_modified_by := "System User", relationship_type := .social,
    is_active := true, is_directed := false, term := .colleague,
    source_type := "person", source_id := 1,
    target_type := "person", target_id := 2 }

/-- Sample store for the operation witnesses. -/
def dbW : DB := { rels := [relW], logs := [], nextRelId := 2 }

/-- Account with id 2, for the employment-edge id scenario. -/
def accB : Account := { id := 2, name := "B Corp", ticker := "B" }

/-- Contact with id 1, employed by account 2. -/
def conA : Contact :=
  { id := 1, first_name := "Al", last_name := "Ba", job_title := "Eng",
    account_id := some 2 }

/-- A `0.3` zoom level, below every threshold. -/
def zoom03 : ℚ := ⟨3, 10, by decide, by decide⟩

/-- Person node 1 for the animation scenario. -/
def cP : Contact := { id := 1, first_name := "Pat", last_name := "Lee", job_title := "Eng" }

/-- Person node 2 for the animation scenario. -/
def cQ : Contact := { id := 2, first_name := "Quin", last_name := "Kim", job_title := "Eng" }

/-- Active friend relationship between persons 1 and 2. -/
def rF : Relationship :=
  { id := 1, score := 80, created_at := 0, last_updated := 0,
    last_modified_by := "System User", relationship_type := .social,
    is_active := true, is_directed := false, term := .friend,
    source_type := "person", source_id := 1,
    target_type := "person", target_id := 2 }

/-! ## C3: two-hop search expansion -/

/-- Chain node X (the only search match for `"xav"`). -/
def chainX : Contact := { id := 1, first_name := "Xavier", last_name := "Lee", job_title := "Eng" }

/-- Chain node Y. -/
def chainY : Contact := { id := 2, first_name := "Yola", last_name := "Kim", job_title := "Eng" }

/-- Chain node Z. -/
def chainZ : Contact := { id := 3, first_name := "Zane", last_name := "Poe", job_title := "Eng" }

/-- Chain node W. -/
def chainW : Contact := { id := 4, first_name := "Walt", last_name := "Oak", job_title := "Eng" }

/-- Chain node V, attached beyond W. -/
def chainV : Contact := { id := 5, first_name := "Vera", last_name := "Fox", job_title := "Eng" }

/-- The contact table X, Y, Z, W, V. -/
def chainContacts : List Contact := [chainX, chainY, chainZ, chainW, chainV]

/-- Chain edge helper: an active undirected colleague row. -/
def chainRel (rid a b : Nat) : Relationship :=
  { id := rid, score := 20, created_at := 0, last_updated := 0,
    last_modified_by := "System User", relationship_type := .business,
    is_active := true, is_directed := false, term := .colleague,
    source_type := "person", source_id := a,
    target_type := "person", target_id := b }

/-- The relationship table: the chain X–Y–Z–W–V. -/
def chainRels : List Relationship :=
  [chainRel 1 1 2, chainRel 2 2 3, chainRel 3 3 4, chainRel 4 4 5]

/-- Counts are sorted descending. -/
def SortedDesc (l : List (NodeRef × Nat)) : Prop :=
  l.Pairwise (fun a b => b.2 ≤ a.2)

/-- Python-dict insertion order: append a key the first time it is seen. -/
def addKey (a : List NodeRef) (k : NodeRef) : List NodeRef :=
  if k ∈ a then a else a ++ [k]

/-- Keys of a key sequence in first-seen order. -/
def firstSeen (ks : List NodeRef) : List NodeRef :=
  ks.foldl addKey []

/-- The node references touched by the relationship scan, in scan order
(source then target per relationship). -/
def scanSeq (rels : List Relationship) : List NodeRef :=
  (rels.map (fun r => [srcRef r, tgtRef r])).flatten

/-- The degree-{3,2,2,1} relationship table over persons 1–4 (person 5 is
isolated), for the top-connected witness. -/
def c8Rels : List Relationship :=
  [chainRel 1 1 2, chainRel 2 1 3, chainRel 3 1 4, chainRel 4 2 3]

/-- Active (person 1 → person 2) row, for the ordered-matching scenarios. -/
def relBA : Relationship :=
  { id := 1, score := 20, created_at := 0, last_updated := 0,
    last_modified_by := "System User", relationship_type := .social,
    is_active := true, is_directed := false, term := .colleague,
    source_type := "person", source_id := 1,
    target_type := "person", target_id := 2 }

/-- Store holding only the active (person 1 → person 2) row. -/
def dbOrd : DB := { rels := [relBA], logs := [], nextRelId := 2 }

/-- Inactive (person 1 → person 2) enemy row, for reactivation scenarios. -/
def relInact : Relationship :=
  { id := 1, score := -100, created_at := 0, last_updated := 0,
    last_modified_by := "System User", relationship_type := .social,
    is_active := false, is_directed := false, term := .enemy,
    source_type := "person", source_id := 1,
    target_type := "person", target_id := 2 }

/-- Store holding only the inactive enemy row. -/
def dbInact : DB := { rels := [relInact], logs := [], nextRelId := 2 }

/-! ## Theorems -/

/-- `zoomLabelCut` is the source's `0.6`. -/
theorem zoomLabelCut_eq : zoomLabelCut = 6 / 10 := by
  rw [zoomLabelCut, Rat.mk'_eq_divInt, Rat.divInt_eq_div]; norm_num

/-- `zoomSizeCut` is the source's `0.4`. -/
theorem zoomSizeCut_eq : zoomSizeCut = 4 / 10 := by
  rw [zoomSizeCut, Rat.mk'_eq_divInt, Rat.divInt_eq_div]; norm_num

/-- `zoomEdgeCut` is the source's `0.5`. -/
theorem zoomEdgeCut_eq : zoomEdgeCut = 5 / 10 := by
  rw [zoomEdgeCut, Rat.mk'_eq_divInt, Rat.divInt_eq_div]; norm_num

/-! ## Row-update helper lemmas -/

/-- Updating by primary key commutes with the primary-key lookup, provided
the update preserves the key. -/
theorem updateById_find? (l : List Relationship) (rel_id : Nat)
    (f : Relationship → Relationship) (hf : ∀ r, (f r).id = r.id) :
    (updateById l rel_id f).find? (fun r => r.id == rel_id)
      = (l.find? (fun r => r.id == rel_id)).map f := by
  induction l with
  | nil => rfl
  | cons x xs ih =>
    by_cases h : x.id = rel_id
    · simp only [updateById, List.map_cons, if_pos (by simpa using h)]
      rw [List.find?_cons_of_pos _ (by simp [hf x, h]),
        List.find?_cons_of_pos _ (by simp [h])]
      simp [h]
    · simp only [updateById, List.map_cons, if_neg (by simpa using h)]
      rw [List.find?_cons_of_neg _ (by simp [h]),
        List.find?_cons_of_neg _ (by simp [h])]
      exact ih

/-- Rows with a different primary key survive an update untouched. -/
theorem updateById_mem_of_ne (l : List Relationship) (rel_id : Nat)
    (f : Relationship → Relationship) (x : Relationship)
    (hx : x ∈ l) (hne : x.id ≠ rel_id) : x ∈ updateById l rel_id f := by
  have hgx : (if x.id == rel_id then f x else x) = x := by
    simp [hne]
  exact List.mem_map.mpr ⟨x, hx, hgx⟩

/-- Updating by key does not change the number of rows. -/
theorem updateById_length (l : List Relationship) (rel_id : Nat)
    (f : Relationship → Relationship) :
    (updateById l rel_id f).length = l.length := by
  simp [updateById]

/-! ## C4: score update -/

/-- C4 (amended): for every call to the score-update event handler: an
unresolved id is a SILENT no-op — no `NotFound` failure is signalled and no
notification is surfaced, and every stored table is left unchanged — while a
resolved id (equally without a notification) appends exactly one
`score_change` log recording (previous, new) score and rewrites the row's
`score`, `last_updated` and `last_modified_by`, keeping all other rows. -/
theorem c4_update_score_spec (db : DB) (rel_id : Nat) (new_score : Int)
    (now : Nat) (user : String) :
    (findRel db rel_id = none →
      update_relationship_score_event db rel_id new_score now user = (db, none))
  ∧ (∀ r, findRel db rel_id = some r →
      (update_relationship_score_event db rel_id new_score now user).2 = none
    ∧ (update_relationship_score db rel_id new_score now user).logs
        = db.logs ++ [{ previous_score := r.score, new_score := new_score,
                        action := "score_change", changed_at := now,
                        note := "Manual update via graph",
                        relationship_id := r.id }]
    ∧ findRel (update_relationship_score db rel_id new_score now user) rel_id
        = some { r with score := new_score, last_updated := now,
                        last_modified_by := user }
    ∧ (∀ x ∈ db.rels, x.id ≠ rel_id →
        x ∈ (update_relationship_score db rel_id new_score now user).rels)
    ∧ (update_relationship_score db rel_id new_score now user).rels.length
        = db.rels.length) := by
  constructor
  · intro h
    simp only [update_relationship_score_event, update_relationship_score, h]
  · intro r hr
    refine ⟨rfl, ?_⟩
    simp only [update_relationship_score, hr]
    refine ⟨trivial, ?_, ?_, ?_⟩
    · simp only [findRel] at hr ⊢
      rw [updateById_find? db.rels rel_id (scorePatch new_score now user)
        (fun _ => rfl), hr]
      rfl
    · intro x hx hne
      exact updateById_mem_of_ne _ _ _ _ hx hne
    · exact updateById_length _ _ _

/-- C4 counterexample: at a store where id 99 does not resolve, the
score-update handler's full observable outcome is the unchanged store with
NO notification of any kind — there is no surfaced `NotFound` failure, so
the claim's "fails with NotFound" clause is false on the code. -/
theorem c4_counterexample :
    findRel dbW 99 = none
  ∧ update_relationship_score_event dbW 99 5 3 "u" = (dbW, none)
  ∧ (∀ msg : String,
      update_relationship_score_event dbW 99 5 3 "u" ≠ (dbW, some msg)) := by
  refine ⟨by decide, by decide,
    fun msg h => Option.noConfusion (congrArg Prod.snd h)⟩

/-- C4 witness: both branches of `c4_update_score_spec` at a concrete store:
missing id 99 no-ops silently, present id 1 is updated and logged, and
neither call surfaces a notification. -/
theorem c4_witness :
    findRel dbW 99 = none
  ∧ update_relationship_score_event dbW 99 5 3 "u" = (dbW, none)
  ∧ findRel dbW 1 = some relW
  ∧ (update_relationship_score_event dbW 1 5 3 "u").2 = none
  ∧ (update_relationship_score dbW 1 5 3 "u").logs
      = dbW.logs ++ [{ previous_score := 20, new_score := 5,
                       action := "score_change", changed_at := 3,
                       note := "Manual update via graph",
                       relationship_id := 1 }] := by
  have h2 := (c4_update_score_spec dbW 1 5 3 "u").2 relW (by decide)
  exact ⟨by decide, (c4_update_score_spec dbW 99 5 3 "u").1 (by decide),
    by decide, h2.1, h2.2.1⟩

/-! ## C7: term update resets defaults -/

/-- C7: for every stored relationship and valid term string, the term-update
operation stores the term, the `TERM_TO_TYPE` category and the
`TERM_DEFAULTS` directedness and score (unconditionally), and appends one
`term_change` log with the before/after term and before/after score. -/
theorem c7_term_reset (db : DB) (rel_id : Nat) (s : String)
    (te : RelationshipTerm) (now : Nat) (user : String)
    (hs : termOfString s = some te)
    (r : Relationship) (hr : findRel db rel_id = some r) :
    (update_relationship_term db rel_id s now user).logs
      = db.logs ++ [{ previous_score := r.score,
                      new_score := (TERM_DEFAULTS te).default_score,
                      previous_term := some r.term, new_term := some te,
                      action := "term_change", changed_at := now,
                      note := "Term changed to " ++ s,
                      relationship_id := r.id }]
  ∧ findRel (update_relationship_term db rel_id s now user) rel_id
      = some { r with term := te, relationship_type := TERM_TO_TYPE te,
                      is_directed := (TERM_DEFAULTS te).is_directed,
                      score := (TERM_DEFAULTS te).default_score,
                      last_updated := now, last_modified_by := user } := by
  simp only [update_relationship_term, hs, hr]
  refine ⟨trivial, ?_⟩
  simp only [findRel] at hr ⊢
  rw [updateById_find? db.rels rel_id (termPatch te now user) (fun _ => rfl), hr]
  rfl

/-- C7 witness: a colleague row moved to `enemy` picks up the enemy defaults
(undirected, score −100) and logs the score reset. -/
theorem c7_witness :
    termOfString "enemy" = some .enemy
  ∧ findRel dbW 1 = some relW
  ∧ (update_relationship_term dbW 1 "enemy" 4 "u").logs
      = [{ previous_score := 20, new_score := -100,
           previous_term := some .colleague, new_term := some .enemy,
           action := "term_change", changed_at := 4,
           note := "Term changed to enemy", relationship_id := 1 }]
  ∧ findRel (update_relationship_term dbW 1 "enemy" 4 "u") 1
      = some { relW with term := .enemy, relationship_type := .social,
                         is_directed := false, score := -100,
                         last_updated := 4, last_modified_by := "u" } := by
  have h := c7_term_reset dbW 1 "enemy" .enemy 4 "u" (by decide) relW (by decide)
  exact ⟨by decide, by decide, h.1, h.2⟩

/-! ## C9 and C10: soft delete -/

/-- C9: for every stored relationship, soft delete clears `is_active` and
appends exactly one `soft_delete` log whose `previous_score` is the stored
score and whose `new_score` is the constant 0. -/
theorem c9_soft_delete_log (db : DB) (rel_id : Nat) (now : Nat)
    (r : Relationship) (hr : findRel db rel_id = some r) :
    (soft_delete_relationship db rel_id now).logs
      = db.logs ++ [{ previous_score := r.score, new_score := 0,
                      action := "soft_delete", changed_at := now,
                      note := "Relationship soft deleted",
                      relationship_id := r.id }]
  ∧ (findRel (soft_delete_relationship db rel_id now) rel_id).map
      (fun x => x.is_active) = some false := by
  simp only [soft_delete_relationship, hr]
  refine ⟨trivial, ?_⟩
  simp only [findRel] at hr ⊢
  rw [updateById_find? db.rels rel_id (softDeletePatch now) (fun _ => rfl), hr]
  rfl

/-- C9 witness: soft-deleting the sample row logs (20, 0). -/
theorem c9_witness :
    findRel dbW 1 = some relW
  ∧ (soft_delete_relationship dbW 1 6).logs
      = [{ previous_score := 20, new_score := 0, action := "soft_delete",
           changed_at := 6, note := "Relationship soft deleted",
           relationship_id := 1 }]
  ∧ (findRel (soft_delete_relationship dbW 1 6) 1).map (fun x => x.is_active)
      = some false := by
  have h := c9_soft_delete_log dbW 1 6 relW (by decide)
  exact ⟨by decide, h.1, h.2⟩

/-- C10: soft delete rewrites only `is_active` and `last_updated` on the
targeted row — score, term, type, directedness, endpoints, creation stamp
and author survive — and every other row survives bit-for-bit. -/
theorem c10_soft_delete_frame (db : DB) (rel_id : Nat) (now : Nat)
    (r : Relationship) (hr : findRel db rel_id = some r) :
    (∃ r', findRel (soft_delete_relationship db rel_id now) rel_id = some r'
      ∧ r'.is_active = false ∧ r'.last_updated = now
      ∧ r'.score = r.score ∧ r'.term = r.term
      ∧ r'.relationship_type = r.relationship_type
      ∧ r'.is_directed = r.is_directed
      ∧ r'.source_type = r.source_type ∧ r'.source_id = r.source_id
      ∧ r'.target_type = r.target_type ∧ r'.target_id = r.target_id
      ∧ r'.created_at = r.created_at
      ∧ r'.last_modified_by = r.last_modified_by)
  ∧ (∀ x ∈ db.rels, x.id ≠ rel_id →
      x ∈ (soft_delete_relationship db rel_id now).rels)
  ∧ (soft_delete_relationship db rel_id now).rels.length = db.rels.length := by
  refine ⟨?_, ?_, ?_⟩
  · refine ⟨{ r with is_active := false, last_updated := now }, ?_, by simp⟩
    simp only [soft_delete_relationship, hr]
    simp only [findRel] at hr ⊢
    rw [updateById_find? db.rels rel_id (softDeletePatch now) (fun _ => rfl), hr]
    rfl
  · intro x hx hne
    simp only [soft_delete_relationship, hr]
    exact updateById_mem_of_ne _ _ _ _ hx hne
  · simp only [soft_delete_relationship, hr]
    exact updateById_length _ _ _

/-! ## Projection lemmas -/

/-- Shape of any synthesized employment edge. -/
theorem empEdgeOf_spec (accIds : List Nat) (c : Contact) (e : RenderEdge)
    (h : empEdgeOf accIds c = some e) :
    ∃ a, c.account_id = some a
      ∧ e.id = "emp-" ++ toString c.id ++ "-" ++ toString a
      ∧ e.source = "acc-" ++ toString a
      ∧ e.target = "con-" ++ toString c.id
      ∧ e.animated = false := by
  unfold empEdgeOf at h
  cases hacc : c.account_id with
  | none => simp only [hacc] at h; cases h
  | some a =>
    simp only [hacc] at h
    by_cases hc : a ≠ 0 ∧ a ∈ accIds
    · rw [if_pos hc] at h
      cases h
      exact ⟨a, rfl, rfl, rfl, rfl, rfl⟩
    · rw [if_neg hc] at h
      cases h

/-- Shape of any explicit relationship edge: wire id, endpoint ids and the
arrow-marker flag. -/
theorem relEdgeOf_spec (z : ℚ) (sh : Bool) (tn : Nat) (r : Relationship)
    (e : RenderEdge) (h : relEdgeOf z sh tn r = some e) :
    e.id = "rel-" ++ toString r.id
    ∧ e.source = (if r.source_type = "company" then "acc-" else "con-")
        ++ toString r.source_id
    ∧ e.target = (if r.target_type = "company" then "acc-" else "con-")
        ++ toString r.target_id
    ∧ e.markerEnd = r.is_directed := by
  simp only [relEdgeOf] at h
  split at h
  · cases h
  · split at h
    · cases h; exact ⟨rfl, rfl, rfl, rfl⟩
    · split at h
      · cases h; exact ⟨rfl, rfl, rfl, rfl⟩
      · split at h
        · cases h; exact ⟨rfl, rfl, rfl, rfl⟩
        · cases h; exact ⟨rfl, rfl, rfl, rfl⟩

/-- A relationship edge can animate particles only under the node-count
bound. -/
theorem relEdgeOf_animated (z : ℚ) (sh : Bool) (tn : Nat) (r : Relationship)
    (e : RenderEdge) (h : relEdgeOf z sh tn r = some e)
    (ha : e.animated = true) : tn ≤ 100 := by
  simp only [relEdgeOf] at h
  split at h
  · cases h
  · split at h
    · cases h; cases ha
    · split at h
      · cases h; cases ha
      · split at h
        · cases h; simpa using ha
        · cases h; simpa using ha

/-- Level-of-detail behavior of an active non-employment relationship edge:
its animation flag is exactly the node-count predicate (independent of
zoom), and below the simplification threshold it carries no label and a thin
stroke. -/
theorem relEdgeOf_active_detail (z : ℚ) (sh : Bool) (tn : Nat)
    (r : Relationship) (e : RenderEdge) (h : relEdgeOf z sh tn r = some e)
    (hact : r.is_active = true)
    (hemp : r.relationship_type ≠ RelationshipType.employment) :
    e.animated = decide (tn ≤ 100)
    ∧ (z < zoomEdgeCut → e.label = none ∧ e.strokeWidth = 1) := by
  simp only [relEdgeOf, hact, Bool.true_eq_false, false_and, if_false,
    if_neg hemp] at h
  by_cases hz : z < zoomEdgeCut
  · rw [if_pos (by simp [hz])] at h
    cases h
    exact ⟨rfl, fun _ => ⟨rfl, rfl⟩⟩
  · rw [if_neg (by simp [hz])] at h
    cases h
    exact ⟨rfl, fun hzc => absurd hzc hz⟩

/-! ## C5: wire id formats -/

/-- C5 (amended): every render node id is `acc-<id>` for a listed company or
`con-<id>` for a listed person; every edge is either an explicit relationship
edge with id `rel-<id>`, or a synthesized employment edge whose id is
`emp-<contactId>-<accountId>` — i.e. the numeric ids of its declared TARGET
and SOURCE nodes in that order, not source-then-target. -/
theorem c5_wire_formats (accounts : List Account) (contacts : List Contact)
    (rels : List Relationship) (zoom : ℚ) (sh : Bool) :
    (∀ n ∈ (graph_data accounts contacts rels zoom sh).1,
        (∃ a ∈ accounts, n.id = "acc-" ++ toString a.id ∧ n.group = "company")
      ∨ (∃ c ∈ contacts, n.id = "con-" ++ toString c.id ∧ n.group = "person"))
  ∧ (∀ e ∈ (graph_data accounts contacts rels zoom sh).2,
        (∃ r ∈ rels, e.id = "rel-" ++ toString r.id)
      ∨ (∃ c ∈ contacts, ∃ a, c.account_id = some a
          ∧ e.id = "emp-" ++ toString c.id ++ "-" ++ toString a
          ∧ e.source = "acc-" ++ toString a
          ∧ e.target = "con-" ++ toString c.id)) := by
  constructor
  · intro n hn
    simp only [graph_data, List.mem_append, List.mem_map] at hn
    rcases hn with ⟨a, ha, rfl⟩ | ⟨c, hc, rfl⟩
    · exact Or.inl ⟨a, ha, rfl, rfl⟩
    · exact Or.inr ⟨c, hc, rfl, rfl⟩
  · intro e he
    simp only [graph_data, List.mem_append, List.mem_filterMap] at he
    rcases he with ⟨c, hc, hce⟩ | ⟨r, hr, hre⟩
    · obtain ⟨a, hacc, hid, hsrc, htgt, -⟩ := empEdgeOf_spec _ c e hce
      exact Or.inr ⟨c, hc, a, hacc, hid, hsrc, htgt⟩
    · exact Or.inl ⟨r, hr, (relEdgeOf_spec _ _ _ _ _ hre).1⟩

/-- C5 counterexample: the employment edge synthesized for contact 1 at
account 2 has declared source `acc-2` and target `con-1`, yet its id is
`emp-1-2` — not the claimed `emp-<sourceId>-<targetId>` = `emp-2-1`. -/
theorem c5_counterexample :
    (graph_data [accB] [conA] [] 1 false).2
      = [{ id := "emp-1-2", source := "acc-2", target := "con-1",
           animated := false, label := none, markerEnd := false,
           stroke := "#334155", strokeWidth := 2, strokeDasharray := "5,5" }]
  ∧ "emp-1-2" ≠ "emp-2-1" := by decide

/-- C5 witness: `c5_wire_formats` applied at the one-company/one-person
store, on its synthesized employment edge. -/
theorem c5_witness :
    (∃ e, e ∈ (graph_data [accB] [conA] [] 1 false).2
      ∧ ((∃ r ∈ ([] : List Relationship), e.id = "rel-" ++ toString r.id)
        ∨ (∃ c ∈ [conA], ∃ a, c.account_id = some a
            ∧ e.id = "emp-" ++ toString c.id ++ "-" ++ toString a
            ∧ e.source = "acc-" ++ toString a
            ∧ e.target = "con-" ++ toString c.id))) := by
  refine ⟨{ id := "emp-1-2", source := "acc-2", target := "con-1",
            animated := false, label := none, markerEnd := false,
            stroke := "#334155", strokeWidth := 2,
            strokeDasharray := "5,5" }, by decide, ?_⟩
  exact (c5_wire_formats [accB] [conA] [] 1 false).2 _ (by decide)

/-! ## C6: level-of-detail thresholds -/

/-- C6 (amended): node labels are hidden below zoom 0.6 and node sizes are
reduced below zoom 0.4; above 100 total nodes no edge animates; and an
active non-employment relationship edge animates exactly when the node count
is at most 100 — independent of zoom — while zoom below 0.5 only removes its
label and thins its stroke. -/
theorem c6_level_of_detail (accounts : List Account) (contacts : List Contact)
    (rels : List Relationship) (zoom : ℚ) (sh : Bool) :
    (zoom < zoomLabelCut →
      ∀ n ∈ (graph_data accounts contacts rels zoom sh).1, n.label = "")
  ∧ (zoom < zoomSizeCut →
      ∀ n ∈ (graph_data accounts contacts rels zoom sh).1,
        n.width = (if n.group = "company" then "50px" else "30px"))
  ∧ (100 < accounts.length + contacts.length →
      ∀ e ∈ (graph_data accounts contacts rels zoom sh).2, e.animated = false)
  ∧ (∀ r e, relEdgeOf zoom sh (accounts.length + contacts.length) r = some e →
      r.is_active = true → r.relationship_type ≠ RelationshipType.employment →
        e.animated = decide (accounts.length + contacts.length ≤ 100)
      ∧ (zoom < zoomEdgeCut → e.label = none ∧ e.strokeWidth = 1)) := by
  refine ⟨?_, ?_, ?_, ?_⟩
  · intro hz n hn
    have hd : decide (zoom ≥ zoomLabelCut) = false := by
      simp [not_le.mpr hz]
    simp only [graph_data, List.mem_append, List.mem_map] at hn
    rcases hn with ⟨a, ha, rfl⟩ | ⟨c, hc, rfl⟩
    · simp [accountNode, hd]
    · simp [contactNode, hd]
  · intro hz n hn
    have hd : decide (zoom < zoomSizeCut) = true := by simp [hz]
    simp only [graph_data, List.mem_append, List.mem_map] at hn
    rcases hn with ⟨a, ha, rfl⟩ | ⟨c, hc, rfl⟩
    · simp [accountNode, hd]
    · simp [contactNode, hd]
  · intro hcount e he
    simp only [graph_data, List.mem_append, List.mem_filterMap] at he
    rcases he with ⟨c, hc, hce⟩ | ⟨r, hr, hre⟩
    · obtain ⟨a, -, -, -, -, hanim⟩ := empEdgeOf_spec _ c e hce
      exact hanim
    · by_cases ha : e.animated = true
      · exact absurd (relEdgeOf_animated _ _ _ _ _ hre ha)
          (by omega)
      · simpa using ha
  · intro r e hre hact hemp
    exact relEdgeOf_active_detail _ _ _ _ _ hre hact hemp

/-- C6 counterexample: at zoom 0.3 — below the 0.5 simplification threshold —
the friend edge between two displayed nodes still animates particles, so
"edges are simplified (… no particle animation) when zoom is below 0.5" is
false on the code. -/
theorem c6_counterexample :
    zoom03 < zoomEdgeCut
  ∧ ((graph_data [] [cP, cQ] [rF] zoom03 false).2.map
      (fun e => (e.id, e.animated))) = [("rel-1", true)] := by decide

/-- C6 witness: `c6_level_of_detail` at the two-person store with zoom 0.3:
the friend edge animates (2 ≤ 100 nodes), has no label and a thin stroke. -/
theorem c6_witness :
    rF.is_active = true
  ∧ rF.relationship_type ≠ RelationshipType.employment
  ∧ zoom03 < zoomEdgeCut
  ∧ (∃ e, relEdgeOf zoom03 false 2 rF = some e
      ∧ e.animated = decide (2 ≤ 100) ∧ e.label = none
      ∧ e.strokeWidth = 1) := by
  refine ⟨by decide, by decide, by decide, ?_⟩
  have hsome : relEdgeOf zoom03 false 2 rF
      = some { id := "rel-1", source := "con-1", target := "con-2",
               animated := true, label := none, markerEnd := false,
               stroke := get_edge_color 80, strokeWidth := 1,
               strokeDasharray := "0" } := by decide
  have h := (c6_level_of_detail [] [cP, cQ] [rF] zoom03 false).2.2.2 rF _
    hsome (by decide) (by decide)
  exact ⟨_, hsome, h.1, (h.2 (by decide)).1, (h.2 (by decide)).2⟩

/-- C3 counterexample: with the seed frontier exactly X and `limit = 100`,
the 2-hop expansion over the chain X–Y–Z–W does NOT include W (id 4): W is
three hops from X, so the claimed four-node visited set is wrong. -/
theorem c3_counterexample :
    chainContacts.filter
        (fun c => substrCI "xav" c.first_name || substrCI "xav" c.last_name)
      = [chainX]
  ∧ ¬ (4 ∈ (search_and_build_subgraph [] chainContacts chainRels "xav"
        false 100).2.1.map (fun c => c.id)) := by decide

/-- C3 (amended): the same query over the chain visits exactly X, Y and Z —
the nodes within two hops of the seed — and the visible edge set is the two
chain edges inside that set; W (three hops) and V (four hops) are
excluded. -/
theorem c3_two_hop_chain :
    search_and_build_subgraph [] chainContacts chainRels "xav" false 100
      = ([], [chainX, chainY, chainZ], [chainRel 1 1 2, chainRel 2 2 3]) := by
  decide

/-! ## C8: top-connected selection -/

/-- Bumping a key raises exactly that key's count by one. -/
theorem lookupCount_bump (l : List (NodeRef × Nat)) (k j : NodeRef) :
    lookupCount (bump l k) j = lookupCount l j + (if k = j then 1 else 0) := by
  induction l with
  | nil =>
    by_cases h : k = j <;> simp [bump, lookupCount, h]
  | cons p rest ih =>
    obtain ⟨a, c⟩ := p
    by_cases h1 : a = k
    · subst h1
      by_cases h2 : a = j
      · subst h2; simp [bump, lookupCount]
      · simp [bump, lookupCount, h2]
    · by_cases h2 : a = j
      · subst h2
        have h3 : ¬ k = a := fun hh => h1 hh.symm
        simp [bump, lookupCount, h1, h3]
      · simp [bump, lookupCount, h1, h2, ih]

/-- Folding the per-relationship double bump over a scan of self-loop-free
relationships counts, for every node reference, the relationships containing
it. -/
theorem lookupCount_foldl (rels : List Relationship)
    (acc : List (NodeRef × Nat)) (j : NodeRef)
    (hns : ∀ r ∈ rels, srcRef r ≠ tgtRef r) :
    lookupCount
        (rels.foldl (fun a r => bump (bump a (srcRef r)) (tgtRef r)) acc) j
      = lookupCount acc j + degreeSpec rels j := by
  induction rels generalizing acc with
  | nil => simp [degreeSpec]
  | cons r rs ih =>
    simp only [List.foldl_cons]
    rw [ih _ (fun x hx => hns x (List.mem_cons_of_mem _ hx))]
    rw [lookupCount_bump, lookupCount_bump]
    have hr := hns r (List.mem_cons_self r rs)
    simp only [degreeSpec, List.countP_cons]
    by_cases h1 : srcRef r = j <;> by_cases h2 : tgtRef r = j
    · exact absurd (h1.trans h2.symm) hr
    · simp [h1, h2]; omega
    · simp [h1, h2]; omega
    · simp [h1, h2]

/-- The counter built by `get_most_connected_nodes` holds each node
reference's degree, provided no relationship is a self-loop (the data-model
invariant: self-connections are rejected before reaching the store). -/
theorem lookupCount_counterList (rels : List Relationship) (j : NodeRef)
    (hns : ∀ r ∈ rels, srcRef r ≠ tgtRef r) :
    lookupCount (counterList rels) j = degreeSpec rels j := by
  simpa [counterList, lookupCount] using lookupCount_foldl rels [] j hns

/-- Stable insertion only rearranges: it yields a permutation of the cons. -/
theorem insertDesc_perm (x : NodeRef × Nat) (l : List (NodeRef × Nat)) :
    List.Perm (insertDesc x l) (x :: l) := by
  induction l with
  | nil => simp [insertDesc]
  | cons y ys ih =>
    by_cases h : y.2 < x.2
    · simp [insertDesc, h]
    · simp only [insertDesc, if_neg h]
      exact (ih.cons y).trans (List.Perm.swap x y ys)

/-- Stable insertion preserves descending sortedness. -/
theorem insertDesc_sorted (x : NodeRef × Nat) (l : List (NodeRef × Nat))
    (hl : SortedDesc l) : SortedDesc (insertDesc x l) := by
  induction l with
  | nil => simp [insertDesc, SortedDesc]
  | cons y ys ih =>
    rw [SortedDesc, List.pairwise_cons] at hl
    obtain ⟨hy, hys⟩ := hl
    by_cases h : y.2 < x.2
    · simp only [insertDesc, if_pos h]
      rw [SortedDesc, List.pairwise_cons]
      refine ⟨?_, List.pairwise_cons.mpr ⟨hy, hys⟩⟩
      intro z hz
      rcases List.mem_cons.mp hz with rfl | hz'
      · exact le_of_lt h
      · exact (hy z hz').trans (le_of_lt h)
    · simp only [insertDesc, if_neg h]
      rw [SortedDesc, List.pairwise_cons]
      refine ⟨?_, ih hys⟩
      intro z hz
      rcases List.mem_cons.mp ((insertDesc_perm x ys).mem_iff.mp hz)
        with rfl | hz'
      · exact le_of_not_lt h
      · exact hy z hz'

/-- Stable insertion of an element of another count class leaves that class
untouched. -/
theorem insertDesc_filter_ne (x : NodeRef × Nat) (l : List (NodeRef × Nat))
    (c : Nat) (hc : ¬ x.2 = c) :
    (insertDesc x l).filter (fun p => p.2 == c)
      = l.filter (fun p => p.2 == c) := by
  induction l with
  | nil => simp [insertDesc, hc]
  | cons y ys ih =>
    by_cases h : y.2 < x.2
    · simp [insertDesc, h, List.filter_cons, hc]
    · simp only [insertDesc, if_neg h, List.filter_cons]
      by_cases hyc : y.2 = c <;> simp [hyc, ih]

/-- Stable insertion appends the new element at the END of its own count
class: this is the stability of `sortDesc`. -/
theorem insertDesc_filter_eq (x : NodeRef × Nat) (l : List (NodeRef × Nat))
    (hl : SortedDesc l) :
    (insertDesc x l).filter (fun p => p.2 == x.2)
      = l.filter (fun p => p.2 == x.2) ++ [x] := by
  induction l with
  | nil => simp [insertDesc]
  | cons y ys ih =>
    rw [SortedDesc, List.pairwise_cons] at hl
    obtain ⟨hy, hys⟩ := hl
    by_cases h : y.2 < x.2
    · have hempty : (y :: ys).filter (fun p => p.2 == x.2) = [] := by
        rw [List.filter_eq_nil_iff]
        intro z hz
        rcases List.mem_cons.mp hz with rfl | hz'
        · simp only [beq_iff_eq]; omega
        · have := hy z hz'
          simp only [beq_iff_eq]; omega
      simp only [insertDesc, if_pos h, List.filter_cons, hempty]
      simp
    · simp only [insertDesc, if_neg h, List.filter_cons]
      rw [ih hys]
      by_cases hyc : y.2 = x.2 <;> simp [hyc]

/-- Folded stable insertion: each count class comes out as the accumulator's
class followed by the input's class, in input order. -/
theorem foldl_insertDesc_filter (l acc : List (NodeRef × Nat))
    (hacc : SortedDesc acc) (c : Nat) :
    (l.foldl (fun a x => insertDesc x a) acc).filter (fun p => p.2 == c)
      = acc.filter (fun p => p.2 == c) ++ l.filter (fun p => p.2 == c) := by
  induction l generalizing acc with
  | nil => simp
  | cons x xs ih =>
    simp only [List.foldl_cons]
    rw [ih _ (insertDesc_sorted x acc hacc)]
    by_cases hc : x.2 = c
    · rw [← hc]
      rw [insertDesc_filter_eq x acc hacc]
      simp [List.filter_cons, List.append_assoc]
    · rw [insertDesc_filter_ne x acc c hc]
      simp [List.filter_cons, hc]

/-- Folded stable insertion keeps the accumulator sorted. -/
theorem foldl_insertDesc_sorted (l acc : List (NodeRef × Nat))
    (hacc : SortedDesc acc) :
    SortedDesc (l.foldl (fun a x => insertDesc x a) acc) := by
  induction l generalizing acc with
  | nil => exact hacc
  | cons x xs ih => exact ih _ (insertDesc_sorted x acc hacc)

/-- Folded stable insertion permutes the concatenation. -/
theorem foldl_insertDesc_perm (l acc : List (NodeRef × Nat)) :
    List.Perm (l.foldl (fun a x => insertDesc x a) acc) (acc ++ l) := by
  induction l generalizing acc with
  | nil => simp
  | cons x xs ih =>
    simp only [List.foldl_cons]
    refine (ih (insertDesc x acc)).trans ?_
    refine (List.Perm.append_right xs (insertDesc_perm x acc)).trans ?_
    exact List.perm_middle.symm

/-- `sortDesc` permutes its input. -/
theorem sortDesc_perm (l : List (NodeRef × Nat)) :
    List.Perm (sortDesc l) l := by
  simpa [sortDesc] using foldl_insertDesc_perm l []

/-- `sortDesc` sorts by count descending. -/
theorem sortDesc_sorted (l : List (NodeRef × Nat)) : SortedDesc (sortDesc l) :=
  foldl_insertDesc_sorted l [] (by simp [SortedDesc])

/-- `sortDesc` is stable: every count class keeps its input order. -/
theorem sortDesc_filter (l : List (NodeRef × Nat)) (c : Nat) :
    (sortDesc l).filter (fun p => p.2 == c) = l.filter (fun p => p.2 == c) := by
  simpa [sortDesc] using foldl_insertDesc_filter l [] (by simp [SortedDesc]) c

/-- A prefix of a descending-sorted list dominates the corresponding
suffix. -/
theorem sortedDesc_take_drop (s : List (NodeRef × Nat)) (hs : SortedDesc s)
    (n : Nat) : ∀ x ∈ s.take n, ∀ y ∈ s.drop n, y.2 ≤ x.2 := by
  rw [SortedDesc, ← List.take_append_drop n s] at hs
  exact (List.pairwise_append.mp hs).2.2

/-- Bumping a counter touches its key list exactly like `addKey`. -/
theorem bump_keys (l : List (NodeRef × Nat)) (k : NodeRef) :
    (bump l k).map (fun p => p.1) = addKey (l.map (fun p => p.1)) k := by
  induction l with
  | nil => simp [bump, addKey]
  | cons p rest ih =>
    obtain ⟨a, c⟩ := p
    by_cases h : a = k
    · subst h; simp [bump, addKey]
    · simp only [bump, if_neg h, List.map_cons, ih, addKey]
      by_cases hk : k ∈ rest.map (fun p => p.1)
      · simp [hk, List.mem_cons]
      · have hne : ¬ k = a := fun hh => h hh.symm
        simp [hk, List.mem_cons, hne]

/-- The counter fold builds its key list in first-seen scan order. -/
theorem counter_keys_foldl (rels : List Relationship)
    (acc : List (NodeRef × Nat)) :
    (rels.foldl (fun a r => bump (bump a (srcRef r)) (tgtRef r)) acc).map
        (fun p => p.1)
      = (scanSeq rels).foldl addKey (acc.map (fun p => p.1)) := by
  induction rels generalizing acc with
  | nil => simp [scanSeq]
  | cons r rs ih =>
    simp only [List.foldl_cons, scanSeq, List.map_cons, List.flatten_cons]
    rw [ih]
    simp [bump_keys, scanSeq]

/-- The keys of `counterList` are the scan's node references in first-seen
order. -/
theorem counterList_keys (rels : List Relationship) :
    (counterList rels).map (fun p => p.1) = firstSeen (scanSeq rels) := by
  simpa [counterList, firstSeen] using counter_keys_foldl rels []

/-- C8: in top-connected mode over the visible (active-unless-historic)
relationship set with no self-loop rows: the counter holds exactly each node
reference's degree (number of visible relationships containing it); the
counter's key order is the first-seen scan order; the ranking is a
permutation of the counter, sorted by count descending and stable (each
count class keeps its first-seen order), the chosen prefix dominating the
rejected suffix; and the visible edge set is exactly the visible
relationships with both endpoints selected. -/
theorem c8_top_connected (accounts : List Account) (contacts : List Contact)
    (allRels : List Relationship) (show_historic : Bool) (limit : Nat)
    (hns : ∀ r ∈ visibleRels allRels show_historic, srcRef r ≠ tgtRef r) :
    (∀ j, lookupCount (counterList (visibleRels allRels show_historic)) j
        = degreeSpec (visibleRels allRels show_historic) j)
  ∧ (counterList (visibleRels allRels show_historic)).map (fun p => p.1)
      = firstSeen (scanSeq (visibleRels allRels show_historic))
  ∧ List.Perm (sortDesc (counterList (visibleRels allRels show_historic)))
      (counterList (visibleRels allRels show_historic))
  ∧ SortedDesc (sortDesc (counterList (visibleRels allRels show_historic)))
  ∧ (∀ c, (sortDesc (counterList (visibleRels allRels show_historic))).filter
        (fun p => p.2 == c)
      = (counterList (visibleRels allRels show_historic)).filter
        (fun p => p.2 == c))
  ∧ (∀ x ∈ (sortDesc (counterList (visibleRels allRels show_historic))).take
        limit,
      ∀ y ∈ (sortDesc (counterList (visibleRels allRels show_historic))).drop
        limit, y.2 ≤ x.2)
  ∧ (∀ r, r ∈ (get_most_connected_nodes accounts contacts allRels
        show_historic limit).2.2
      ↔ r ∈ visibleRels allRels show_historic
        ∧ srcRef r ∈ topNodes (visibleRels allRels show_historic) limit
        ∧ tgtRef r ∈ topNodes (visibleRels allRels show_historic) limit) := by
  refine ⟨fun j => lookupCount_counterList _ j hns, counterList_keys _,
    sortDesc_perm _, sortDesc_sorted _, fun c => sortDesc_filter _ c,
    fun x hx y hy => sortedDesc_take_drop _ (sortDesc_sorted _) limit x hx y hy,
    ?_⟩
  intro r
  simp [get_most_connected_nodes, List.mem_filter, and_assoc]

/-- C8 witness: `c8_top_connected` on the degree-{3,2,2,1} table with
`limit = 2`: persons 1 and 2 are selected (tie between persons 2 and 3
broken by first-seen order) and only their mutual edge remains. -/
theorem c8_witness :
    (∀ r ∈ visibleRels c8Rels false, srcRef r ≠ tgtRef r)
  ∧ lookupCount (counterList (visibleRels c8Rels false)) ("person", 1)
      = degreeSpec (visibleRels c8Rels false) ("person", 1)
  ∧ (get_most_connected_nodes [] chainContacts c8Rels false 2).2.1
      = [chainX, chainY]
  ∧ (get_most_connected_nodes [] chainContacts c8Rels false 2).2.2
      = [chainRel 1 1 2]
  ∧ (chainRel 1 1 2
        ∈ (get_most_connected_nodes [] chainContacts c8Rels false 2).2.2
      ↔ chainRel 1 1 2 ∈ visibleRels c8Rels false
        ∧ srcRef (chainRel 1 1 2) ∈ topNodes (visibleRels c8Rels false) 2
        ∧ tgtRef (chainRel 1 1 2) ∈ topNodes (visibleRels c8Rels false) 2) := by
  have h := c8_top_connected [] chainContacts c8Rels false 2 (by decide)
  exact ⟨by decide, h.1 ("person", 1), by decide, by decide,
    h.2.2.2.2.2.2 (chainRel 1 1 2)⟩

/-! ## C1 and C2: create-or-reactivate -/

/-- C1 (amended): in both creation paths the duplicate lookup matches only
the stored `(source, target)` pair in that order.  When no row is stored
under exactly that ordered pair — even when a row for the reversed pair
exists, in any activity state — both paths create a fresh relationship; when
an active row is stored under the ordered pair, both paths reject as a
duplicate with the store untouched. -/
theorem c1_ordered_pair_matching (db : DB) (ssrc stgt : String)
    (st : String) (si : Nat) (tt : String) (ti : Nat) (now : Nat)
    (hs : parseNodeId ssrc = some (st, si))
    (ht : parseNodeId stgt = some (tt, ti))
    (hne : ¬(st = tt ∧ si = ti))
    (pt : String) (te : RelationshipTerm) (hpt : termOfString pt = some te)
    (score : Int) (hs0 : ¬ ssrc = "") (ht0 : ¬ ti = 0) :
    (findPair db (st, si) (tt, ti) = none →
        on_connect db ssrc stgt now
          = .created (create_relationship_with_term db (st, si) (tt, ti)
              (connectTerm st tt) (connectRelType st tt) now)
      ∧ (∃ nr, create_relationship_from_panel db ssrc ti tt pt score now
            = .created { db with rels := db.rels ++ [nr],
                                 nextRelId := db.nextRelId + 1 }
          ∧ srcRef nr = (st, si) ∧ tgtRef nr = (tt, ti)
          ∧ nr.is_active = true))
  ∧ (∀ ex, findPair db (st, si) (tt, ti) = some ex → ex.is_active = true →
        on_connect db ssrc stgt now = .duplicate db
      ∧ create_relationship_from_panel db ssrc ti tt pt score now
          = .duplicate db) := by
  constructor
  · intro h
    constructor
    · simp only [on_connect, hs, ht, on_connect_refs, hne, if_false, h]
    · refine ⟨{ id := db.nextRelId, score := score, created_at := now,
                last_updated := now, last_modified_by := "System User",
                relationship_type := TERM_TO_TYPE te, is_active := true,
                is_directed := (TERM_DEFAULTS te).is_directed, term := te,
                source_type := st, source_id := si,
                target_type := tt, target_id := ti }, ?_, rfl, rfl, rfl⟩
      simp only [create_relationship_from_panel, if_neg hs0, if_neg ht0,
        hs, hpt, h]
  · intro ex hex hact
    constructor
    · simp only [on_connect, hs, ht, on_connect_refs, hne, if_false, hex,
        hact, if_true]
    · simp only [create_relationship_from_panel, if_neg hs0, if_neg ht0,
        hs, hpt, hex, hact, if_true]

/-- C1 witness: the hypotheses of `c1_ordered_pair_matching` hold at a store
whose only row is the ACTIVE reversed pair, and both paths create. -/
theorem c1_witness :
    findPair dbOrd ("person", 2) ("person", 1) = none
  ∧ (findPair dbOrd ("person", 1) ("person", 2)).map (fun r => r.is_active)
      = some true
  ∧ isCreated (on_connect dbOrd "con-2" "con-1" 5) = true
  ∧ isCreated (create_relationship_from_panel dbOrd "con-2" 1 "person"
      "friend" 7 5) = true := by
  have h := (c1_ordered_pair_matching dbOrd "con-2" "con-1" "person" 2
    "person" 1 5 (by decide) (by decide) (by decide) "friend" .friend
    (by decide) 7 (by decide) (by decide)).1 (by decide)
  refine ⟨by decide, by decide, ?_, ?_⟩
  · rw [h.1]; rfl
  · obtain ⟨nr, heq, -, -, -⟩ := h.2
    rw [heq]; rfl

/-- C1 counterexample: an ACTIVE row stored as (person 1 → person 2) does
not stop the reverse request person 2 → person 1 — the claim's required
duplicate rejection does not happen: both paths create a second row for the
same unordered pair. -/
theorem c1_counterexample :
    (findPair dbOrd ("person", 1) ("person", 2)).map (fun r => r.is_active)
      = some true
  ∧ isCreated (on_connect dbOrd "con-2" "con-1" 5) = true
  ∧ (outcomeDB (on_connect dbOrd "con-2" "con-1" 5)).rels.length = 2
  ∧ isCreated (create_relationship_from_panel dbOrd "con-2" 1 "person"
      "friend" 7 5) = true
  ∧ (outcomeDB (create_relationship_from_panel dbOrd "con-2" 1 "person"
      "friend" 7 5)).rels.length = 2 := by decide

/-- C2 (amended): reactivating an inactive ordered-pair match sets
`is_active` and appends exactly one log, but the two paths differ: the
drag-connect path leaves term/type/score/directedness untouched and logs
`reactivate` with previous = new = stored score; the panel path overwrites
term/type/score with the supplied values and logs `reactivate_panel` with
previous = new = the supplied score (the pre-reactivation score is not
recorded). -/
theorem c2_reactivation_behavior (db : DB) (ssrc stgt : String)
    (st : String) (si : Nat) (tt : String) (ti : Nat) (now : Nat)
    (hs : parseNodeId ssrc = some (st, si))
    (ht : parseNodeId stgt = some (tt, ti))
    (hne : ¬(st = tt ∧ si = ti))
    (pt : String) (te : RelationshipTerm) (hpt : termOfString pt = some te)
    (score : Int) (hs0 : ¬ ssrc = "") (ht0 : ¬ ti = 0)
    (ex : Relationship) (hex : findPair db (st, si) (tt, ti) = some ex)
    (hinact : ex.is_active = false)
    (hid : findRel db ex.id = some ex) :
    (on_connect db ssrc stgt now = .reactivated (reactivateViaConnect db ex now)
    ∧ (reactivateViaConnect db ex now).logs
        = db.logs ++ [{ previous_score := ex.score, new_score := ex.score,
                        action := "reactivate", changed_at := now,
                        note := "Reactivated via graph connection",
                        relationship_id := ex.id }]
    ∧ findRel (reactivateViaConnect db ex now) ex.id
        = some { ex with is_active := true, last_updated := now })
  ∧ (∃ db2, create_relationship_from_panel db ssrc ti tt pt score now
        = .reactivated db2
    ∧ db2.logs
        = db.logs ++ [{ previous_score := score, new_score := score,
                        action := "reactivate_panel", changed_at := now,
                        note := "Reactivated via side panel",
                        relationship_id := ex.id }]
    ∧ findRel db2 ex.id
        = some { ex with is_active := true, term := te,
                         relationship_type := TERM_TO_TYPE te,
                         score := score, last_updated := now }) := by
  constructor
  · refine ⟨?_, rfl, ?_⟩
    · simp only [on_connect, hs, ht, on_connect_refs, hne, if_false, hex,
        hinact, Bool.false_eq_true, if_false]
    · simp only [reactivateViaConnect, findRel] at hid ⊢
      rw [updateById_find? db.rels ex.id (connectReactivatePatch now)
        (fun _ => rfl), hid]
      rfl
  · refine ⟨{ db with
      rels := updateById db.rels ex.id (panelReactivatePatch te score now),
      logs := db.logs ++ [{ previous_score := score, new_score := score,
                            action := "reactivate_panel", changed_at := now,
                            note := "Reactivated via side panel",
                            relationship_id := ex.id }] }, ?_, rfl, ?_⟩
    · simp only [create_relationship_from_panel, if_neg hs0, if_neg ht0,
        hs, hpt, hex, hinact, Bool.false_eq_true, if_false]
    · simp only [findRel] at hid ⊢
      rw [updateById_find? db.rels ex.id (panelReactivatePatch te score now)
        (fun _ => rfl), hid]
      rfl

/-- C2 witness: `c2_reactivation_behavior` at the inactive enemy row, with
the panel supplying term `friend` and score 50. -/
theorem c2_witness :
    findPair dbInact ("person", 1) ("person", 2) = some relInact
  ∧ relInact.is_active = false
  ∧ (reactivateViaConnect dbInact relInact 9).logs
      = [{ previous_score := -100, new_score := -100, action := "reactivate",
           changed_at := 9, note := "Reactivated via graph connection",
           relationship_id := 1 }]
  ∧ findRel (reactivateViaConnect dbInact relInact 9) 1
      = some { relInact with is_active := true, last_updated := 9 } := by
  have h := (c2_reactivation_behavior dbInact "con-1" "con-2" "person" 1
    "person" 2 9 (by decide) (by decide) (by decide) "friend" .friend
    (by decide) 50 (by decide) (by decide) relInact (by decide) (by decide)
    (by decide)).1
  exact ⟨by decide, by decide, h.2.1, h.2.2⟩

/-- C2 counterexample: reactivating via drag-connect leaves the stored term
`enemy` (the path's term argument is `friend`, so no overwrite happened, as
the claim requires), and the panel path's single log records the supplied
score 50 as `previous_score` even though the pre-reactivation score was
−100. -/
theorem c2_counterexample :
    (findRel (outcomeDB (on_connect dbInact "con-1" "con-2" 9)) 1).map
        (fun r => (r.term, r.score))
      = some (RelationshipTerm.enemy, (-100 : Int))
  ∧ connectTerm "person" "person" = RelationshipTerm.friend
  ∧ RelationshipTerm.enemy ≠ RelationshipTerm.friend
  ∧ (outcomeDB (create_relationship_from_panel dbInact "con-1" 2 "person"
      "friend" 50 9)).logs
      = [{ previous_score := 50, new_score := 50, action := "reactivate_panel",
           changed_at := 9, note := "Reactivated via side panel",
           relationship_id := 1 }]
  ∧ ((50 : Int) = -100 → False) := by decide

/-- C10 witness: the soft-deleted sample row keeps all non-lifecycle fields. -/
theorem c10_witness :
    findRel dbW 1 = some relW
  ∧ findRel (soft_delete_relationship dbW 1 6) 1
      = some { relW with is_active := false, last_updated := 6 }
  ∧ (soft_delete_relationship dbW 1 6).rels.length = dbW.rels.length := by
  have h := c10_soft_delete_frame dbW 1 6 relW (by decide)
  exact ⟨by decide, by decide, h.2.2⟩

end RelDash
